import Mathlib

/-!
# Verification of `consul/dnsdisc.py` (infra-utils)

Shallow embedding of the DNS-discovery record synchronisation utility:
a Consul catalog query across all datacenters, an external tree-generator
child process queried over JSON-RPC, and a CloudFlare TXT-record
full-replace (delete old, create new) pipeline.

External collaborators (Consul, the generator process, CloudFlare) are
modelled as oracles supplied as inputs; the embedded functions mirror the
control flow of the Python source, producing an `Except` outcome, the
provider's final record state, and a trace of the side-effecting calls.
-/

set_option maxRecDepth 100000

namespace DnsDisc

/-- Python `str.endswith`: `suffix` is a suffix of `s`, over the character
sequences of the strings. -/
def endswith (s suffix : String) : Bool :=
  List.isSuffixOf suffix.data s.data

/-- The exceptions the script can raise on the paths the embedding covers:
`keyError k` for a Python `KeyError` on dict key `k`, `stopIteration` for
the exhausted `next(...)` in `CFManager.__init__`, `transportError` for a
`requests` transport exception, and `providerError` for a failing
CloudFlare API call. -/
inductive Err
  | keyError (key : String)
  | stopIteration
  | transportError
  | providerError
deriving DecidableEq, Repr

/-- Side-effecting calls the script makes, in order: spawning the generator
child process, the fixed 1-second sleep, a JSON-RPC request, killing the
child, deleting a DNS record by id, creating a DNS record. -/
inductive Event
  | spawn (domain : String) (enrs : List String)
  | sleep
  | rpc (method : String)
  | kill
  | delete (id : String)
  | create (name content : String)
deriving DecidableEq, Repr

/-- The JSON body the generator's RPC endpoint answers with, reduced to the
two fields the protocol uses: an optional `result` mapping (record name to
TXT content, in object order) and an optional `error` payload (opaque).
The Python code only ever reads the `result` key. -/
structure RpcResponse where
  result : Option (List (String × String))
  error : Option String
deriving DecidableEq, Repr

/-- Outcome of the single HTTP POST in `DNSDiscovery._rpc`: either the
transport delivers a parsed JSON response, or it raises. -/
inductive RpcOutcome
  | response (resp : RpcResponse)
  | transportFailure
deriving DecidableEq, Repr

/-- One Consul service instance as returned by the catalog: its fields
`Node`, `ServiceID` and the `ServiceMeta` string mapping. -/
structure Instance where
  Node : String
  ServiceID : String
  ServiceMeta : List (String × String)
deriving DecidableEq, Repr

/-- The Consul server as seen through `consul.Consul`: the datacenter list
and, for each (service, datacenter, node-meta filter) query, the
`(index, services)` pair the catalog endpoint returns. -/
structure ConsulClient where
  datacenters : List String
  catalogService : String → String → List (String × String) → Nat × List Instance

namespace ConsulCatalog

/-- `ConsulCatalog.dcs`: `self.client.catalog.datacenters()`. -/
def dcs (c : ConsulClient) : List String :=
  c.datacenters

/-- `ConsulCatalog.services`: `self.client.catalog.service(service, dc=dc,
node_meta=meta)`, the raw `(index, services)` pair. -/
def services (c : ConsulClient) (service dc : String)
    (meta : List (String × String)) : Nat × List Instance :=
  c.catalogService service dc meta

/-- `ConsulCatalog.all_services`: starts from `rval = []` and, for each
datacenter in order, extends `rval` with component `[1]` of the per-dc
catalog response. -/
def all_services (c : ConsulClient) (service : String)
    (meta : List (String × String)) : List Instance :=
  (dcs c).foldl (fun rval dc => rval ++ (services c service dc meta).2) []

end ConsulCatalog

namespace DNSDiscovery

/-- `DNSDiscovery._rpc`: one HTTP POST of a JSON-RPC 2.0 envelope for the
given method; returns the parsed response or raises a transport error.
The trace records the single request issued. -/
def _rpc (method : String) (out : RpcOutcome) :
    Except Err RpcResponse × List Event :=
  match out with
  | .response resp => (.ok resp, [.rpc method])
  | .transportFailure => (.error .transportError, [.rpc method])

/-- `DNSDiscovery.records`: `self._rpc('get_txt_records')['result']` —
dict indexing on the parsed response, raising `KeyError('result')` when
the key is absent. The `error` field is never inspected. -/
def records (out : RpcOutcome) :
    Except Err (List (String × String)) × List Event :=
  let r := _rpc "get_txt_records" out
  match r.1 with
  | .ok resp =>
    match resp.result with
    | some m => (.ok m, r.2)
    | none => (.error (.keyError "result"), r.2)
  | .error e => (.error e, r.2)

/-- `DNSDiscovery.generate` together with the `start` context manager: the
child is spawned with the domain and the enr list, the fixed sleep runs,
`records` is evaluated, and the `finally` block kills the child on every
exit path, so the trace always ends with `Event.kill` whatever `records`
produced. -/
def generate (domain : String) (enrs : List String) (out : RpcOutcome) :
    Except Err (List (String × String)) × List Event :=
  let r := records out
  (r.1, [.spawn domain enrs, .sleep] ++ r.2 ++ [.kill])

end DNSDiscovery

/-- A CloudFlare zone, reduced to the two fields the script reads: `id`
and `name`. -/
structure Zone where
  id : String
  name : String
deriving DecidableEq, Repr

/-- A CloudFlare TXT record, reduced to the fields the script reads:
`id`, `name`, `content`. -/
structure DNSRecord where
  id : String
  name : String
  content : String
deriving DecidableEq, Repr

/-- The CloudFlare account as seen through the API client: the account's
zones in listing order and, per zone id, the zone's TXT records in listing
order. A paged `get` with `per_page = n` and no page parameter returns the
first `n` entries of the corresponding list. -/
structure CFClient where
  zones : List Zone
  dnsRecords : String → List DNSRecord

namespace CFManager

/-- `CFManager.__init__` zone resolution: `zones.get(params={'per_page':100})`
fetches the first page of at most 100 zones, and `next(z for z in zones if
z['name'] == domain)` takes the first exact name match, raising
`StopIteration` when the page holds none. -/
def init (cf : CFClient) (domain : String) : Except Err Zone :=
  match (cf.zones.take 100).find? (fun z => z.name == domain) with
  | some z => .ok z
  | none => .error .stopIteration

/-- `CFManager.txt_records`: `dns_records.get(zone_id, params={'type':'txt',
'per_page':1000})` fetches the first page of at most 1000 TXT records of
the resolved zone, then keeps those whose name ends with `suffix`. -/
def txt_records (cf : CFClient) (zone : Zone) (suffix : String) :
    List DNSRecord :=
  ((cf.dnsRecords zone.id).take 1000).filter (fun r => endswith r.name suffix)

end CFManager

/-- The delete loop of `main`: for each old record in order,
`cf.delete(record['id'])`; a failing provider call raises `providerError`
immediately, leaving the remaining records untouched and the create loop
unreached. A successful call removes the record with that id from the zone
and is traced as `Event.delete`. -/
def runDeletes (fails : String → Bool) :
    List DNSRecord → List DNSRecord →
    Except Err Unit × List DNSRecord × List Event
  | zone, [] => (.ok (), zone, [])
  | zone, r :: rs =>
    if fails r.id then
      (.error .providerError, zone, [])
    else
      let rest := runDeletes fails (zone.filter (fun x => x.id != r.id)) rs
      (rest.1, rest.2.1, .delete r.id :: rest.2.2)

/-- The create loop of `main`: for each `(name, value)` of the generated
mapping in order, `cf.create(name, value)` adds a TXT record (the provider
assigns the id, modelled as `""`), traced as `Event.create`. -/
def runCreates : List DNSRecord → List (String × String) →
    List DNSRecord × List Event
  | zone, [] => (zone, [])
  | zone, (n, c) :: rest =>
    let r := runCreates (zone ++ [⟨"", n, c⟩]) rest
    (r.1, .create n c :: r.2)

/-- The endpoint extraction in `main`: the logging loop and the list
comprehension both index `service['ServiceMeta']['node_enode']` left to
right, so the first instance lacking the key raises `KeyError` and
otherwise the extracted list holds one value per instance in order. -/
def service_enrs : List Instance → Except Err (List String)
  | [] => .ok []
  | s :: ss =>
    match s.ServiceMeta.lookup "node_enode" with
    | none => .error (.keyError "node_enode")
    | some v =>
      match service_enrs ss with
      | .ok vs => .ok (v :: vs)
      | .error e => .error e

/-- The command-line options `main` reads on the modelled paths. -/
structure Opts where
  domain : String
  cf_domain : String
  query_service : String
  query_env : String
  query_stage : String

/-- The external world one run interacts with: the Consul server, the
generator RPC outcome, the CloudFlare account, and which record ids the
provider's delete call fails on. -/
structure World where
  consul : ConsulClient
  rpc : RpcOutcome
  cf : CFClient
  deleteFails : String → Bool

/-- Pointwise update of the provider's per-zone record table. -/
def updateRecs (f : String → List DNSRecord) (k : String)
    (v : List DNSRecord) : String → List DNSRecord :=
  fun x => if x = k then v else f x

/-- `main`: query all datacenters for the service with the env/stage meta
filter, extract the `node_enode` endpoint of every instance, generate the
new records through the child process, resolve the CloudFlare zone, list
the old TXT records under `opts.domain`, delete each old record, then
create each new record. Any exception aborts the run at that point.
Returns the outcome, the provider's final per-zone record table, and the
event trace. -/
def main (opts : Opts) (w : World) :
    Except Err Unit × (String → List DNSRecord) × List Event :=
  let services := ConsulCatalog.all_services w.consul opts.query_service
      [("env", opts.query_env), ("stage", opts.query_stage)]
  match service_enrs services with
  | .error e => (.error e, w.cf.dnsRecords, [])
  | .ok enrs =>
    let gen := DNSDiscovery.generate opts.domain enrs w.rpc
    match gen.1 with
    | .error e => (.error e, w.cf.dnsRecords, gen.2)
    | .ok new_records =>
      match CFManager.init w.cf opts.cf_domain with
      | .error e => (.error e, w.cf.dnsRecords, gen.2)
      | .ok zone =>
        let old_records := CFManager.txt_records w.cf zone opts.domain
        let del := runDeletes w.deleteFails (w.cf.dnsRecords zone.id) old_records
        match del.1 with
        | .error e =>
          (.error e, updateRecs w.cf.dnsRecords zone.id del.2.1, gen.2 ++ del.2.2)
        | .ok _ =>
          let cr := runCreates del.2.1 new_records
          (.ok (), updateRecs w.cf.dnsRecords zone.id cr.1, gen.2 ++ del.2.2 ++ cr.2)

end DnsDisc

namespace DnsDisc

/-! ## Concrete inputs used by counterexamples and witnesses -/

/-- Options used by the concrete scenario runs. -/
def opts0 : Opts :=
  ⟨"nodes.example.org", "example.org", "nim-waku-v2-enr", "wakuv2", "test"⟩

/-- An instance carrying a `node_enode` endpoint. -/
def inst1 : Instance := ⟨"n1", "s1", [("node_enode", "enr:aaa")]⟩

/-- A second instance, in another datacenter. -/
def inst2 : Instance := ⟨"n2", "s2", [("node_enode", "enr:bbb")]⟩

/-- An instance whose metadata lacks the `node_enode` key. -/
def instBad : Instance := ⟨"n3", "s3", [("other", "x")]⟩

/-- A two-datacenter Consul server with one instance in each. -/
def consul0 : ConsulClient :=
  ⟨["dc1", "dc2"], fun _ dc _ => if dc == "dc1" then (1, [inst1]) else (2, [inst2])⟩

/-- The account zone the scenario runs resolve. -/
def zoneA : Zone := ⟨"zid", "example.org"⟩

/-- Three TXT records: two under the discovery domain, one unrelated. -/
def rec1 : DNSRecord := ⟨"r1", "a.nodes.example.org", "c1"⟩

/-- Second discovery record of the scenario zone. -/
def rec2 : DNSRecord := ⟨"r2", "b.nodes.example.org", "c2"⟩

/-- A record not under the discovery domain. -/
def rec3 : DNSRecord := ⟨"r3", "unrelated.example.org", "c3"⟩

/-- A CloudFlare account holding one zone with the three records. -/
def cf0 : CFClient :=
  ⟨[zoneA], fun z => if z == "zid" then [rec1, rec2, rec3] else []⟩

/-- A zone holding 1001 TXT records that all end with `.suf`; the 1001st
does not fit in the provider's first page of 1000. -/
def bigZoneRecs : List DNSRecord :=
  List.replicate 1000 ⟨"i", "a.suf", "c"⟩ ++ [⟨"j", "b.suf", "c"⟩]

/-- A CloudFlare account whose only zone holds `bigZoneRecs`. -/
def bigCF : CFClient := ⟨[⟨"z", "example.org"⟩], fun _ => bigZoneRecs⟩

/-- An account with 101 zones where only the 101st matches the wanted
domain, so the match is outside the first page of 100 zones. -/
def manyZones : List Zone :=
  List.replicate 100 ⟨"za", "other.org"⟩ ++ [⟨"zb", "example.org"⟩]

/-- A world whose generator RPC answers with an error payload and no
`result` field. -/
def wErr : World := ⟨consul0, .response ⟨none, some "boom"⟩, cf0, fun _ => false⟩

/-- A world whose registry returns an instance lacking `node_enode`. -/
def wBad : World :=
  ⟨⟨["dc1"], fun _ _ _ => (1, [inst1, instBad])⟩,
   .response ⟨some [], none⟩, cf0, fun _ => false⟩

/-- A world where the provider's delete call fails on record `r2`, the
second of the three old records. -/
def wDel : World :=
  ⟨consul0, .response ⟨some [("x.nodes.example.org", "v1")], none⟩, cf0,
   fun i => i == "r2"⟩

/-- A world with an empty registry, a generator returning the empty
mapping, and the three-record zone. -/
def wEmpty : World :=
  ⟨⟨["dc1"], fun _ _ _ => (1, [])⟩, .response ⟨some [], none⟩, cf0,
   fun _ => false⟩

/-- A world with an empty registry, a generator returning the empty
mapping, and the 1001-record zone `bigZoneRecs` under domain suffix
`.suf`. -/
def wEmptyBig : World :=
  ⟨⟨["dc1"], fun _ _ _ => (1, [])⟩, .response ⟨some [], none⟩, bigCF,
   fun _ => false⟩

/-- Options resolving `bigCF`'s zone, with tree domain (and thus record
suffix) `.suf`. -/
def optsBig : Opts := ⟨".suf", "example.org", "nim-waku-v2-enr", "wakuv2", "test"⟩

/-- First of three discovery records in the C6 scenario zone. -/
def recA : DNSRecord := ⟨"ra", "a.nodes.example.org", "c1"⟩

/-- Second record, on which the provider's delete call will fail. -/
def recB : DNSRecord := ⟨"rb", "b.nodes.example.org", "c2"⟩

/-- Third record, never reached by the delete loop. -/
def recC : DNSRecord := ⟨"rc", "c.nodes.example.org", "c3"⟩

/-- An account whose zone holds the three discovery records. -/
def cf1 : CFClient :=
  ⟨[zoneA], fun z => if z == "zid" then [recA, recB, recC] else []⟩

/-- A world where deleting the second of the three old records fails at
the provider. -/
def wDel3 : World :=
  ⟨consul0, .response ⟨some [("x.nodes.example.org", "v1")], none⟩, cf1,
   fun i => i == "rb"⟩

/-! ## Helper lemmas -/

/-- The generator run produces the same four-event trace on every outcome:
spawn, sleep, the one RPC request, kill. -/
theorem generate_trace (domain : String) (enrs : List String)
    (out : RpcOutcome) :
    (DNSDiscovery.generate domain enrs out).2 =
      [.spawn domain enrs, .sleep, .rpc "get_txt_records", .kill] := by
  cases out with
  | response resp =>
    cases h : resp.result <;>
      simp [DNSDiscovery.generate, DNSDiscovery.records, DNSDiscovery._rpc, h]
  | transportFailure =>
    simp [DNSDiscovery.generate, DNSDiscovery.records, DNSDiscovery._rpc]

/-- Folding list append over a map is concatenation. -/
theorem foldl_append_eq_flatten {α β : Type} (f : α → List β) :
    ∀ (l : List α) (acc : List β),
      l.foldl (fun rval a => rval ++ f a) acc = acc ++ (l.map f).flatten
  | [], acc => by simp
  | a :: l, acc => by
    simp [List.foldl_cons, foldl_append_eq_flatten f l (acc ++ f a)]

/-- Occurrences in a concatenation are the sum of per-part occurrences. -/
theorem count_flatten_sum {α : Type} [DecidableEq α] (a : α) :
    ∀ ls : List (List α), ls.flatten.count a = (ls.map (·.count a)).sum
  | [] => by simp
  | l :: ls => by simp [List.count_append, count_flatten_sum a ls]

/-! ## Claim theorems -/

/-- Claim C1: every invocation of `generate` kills the child generator
process exactly once, on every exit path — RPC success, error payload,
or transport failure — and the kill is the last action before `generate`
returns or raises. -/
theorem generate_kills_child_exactly_once (domain : String)
    (enrs : List String) (out : RpcOutcome) :
    ((DNSDiscovery.generate domain enrs out).2).count .kill = 1 ∧
    ((DNSDiscovery.generate domain enrs out).2).getLast? = some .kill := by
  rw [generate_trace]
  refine ⟨?_, rfl⟩
  simp [List.count_cons, List.count_nil]

/-- Claim C4 (amended): `generate` returns exactly the mapping in the
`result` field when it is present; a response missing `result` fails with
`KeyError('result')` and a transport failure propagates, in both cases
with no retry (exactly one RPC request is ever issued). The `error` field
itself is never inspected. -/
theorem generate_returns_result_field (domain : String) (enrs : List String)
    (resp : RpcResponse) (m : List (String × String)) :
    (resp.result = some m →
      (DNSDiscovery.generate domain enrs (.response resp)).1 = .ok m) ∧
    (resp.result = none →
      (DNSDiscovery.generate domain enrs (.response resp)).1 =
        .error (.keyError "result")) ∧
    (DNSDiscovery.generate domain enrs .transportFailure).1 =
      .error .transportError ∧
    ∀ out : RpcOutcome,
      ((DNSDiscovery.generate domain enrs out).2).count (.rpc "get_txt_records") = 1 := by
  refine ⟨?_, ?_, ?_, ?_⟩
  · intro h
    simp [DNSDiscovery.generate, DNSDiscovery.records, DNSDiscovery._rpc, h]
  · intro h
    simp [DNSDiscovery.generate, DNSDiscovery.records, DNSDiscovery._rpc, h]
  · simp [DNSDiscovery.generate, DNSDiscovery.records, DNSDiscovery._rpc]
  · intro out
    rw [generate_trace]
    simp [List.count_cons, List.count_nil]

/-- Witness for C4 at a concrete response carrying a `result` mapping. -/
theorem generate_returns_result_field_witness :
    (DNSDiscovery.generate "nodes.example.org" ["enr:aaa"]
      (.response ⟨some [("x.nodes.example.org", "v1")], none⟩)).1 =
      .ok [("x.nodes.example.org", "v1")] :=
  (generate_returns_result_field "nodes.example.org" ["enr:aaa"]
    ⟨some [("x.nodes.example.org", "v1")], none⟩
    [("x.nodes.example.org", "v1")]).1 rfl

/-- Counterexample for C4 as stated: a response containing an `error`
field alongside `result` is not fatal — `generate` succeeds and returns
the `result` mapping, because the code never reads the `error` key. -/
theorem generate_ignores_error_field :
    (RpcResponse.mk (some [("a.nodes.example.org", "v")]) (some "boom")).error
        = some "boom" ∧
    (DNSDiscovery.generate "nodes.example.org" []
      (.response ⟨some [("a.nodes.example.org", "v")], some "boom"⟩)).1 =
      .ok [("a.nodes.example.org", "v")] :=
  ⟨rfl, rfl⟩

/-- Claim C5: `all_services` is exactly the concatenation of the per-
datacenter catalog results in datacenter order, and occurrences add up
across datacenters — no deduplication. -/
theorem all_services_concat_no_dedup (c : ConsulClient) (service : String)
    (meta : List (String × String)) :
    ConsulCatalog.all_services c service meta =
      ((ConsulCatalog.dcs c).map
        (fun dc => (ConsulCatalog.services c service dc meta).2)).flatten ∧
    ∀ x : Instance,
      (ConsulCatalog.all_services c service meta).count x =
        ((ConsulCatalog.dcs c).map
          (fun dc => ((ConsulCatalog.services c service dc meta).2).count x)).sum := by
  have h : ConsulCatalog.all_services c service meta =
      ((ConsulCatalog.dcs c).map
        (fun dc => (ConsulCatalog.services c service dc meta).2)).flatten := by
    unfold ConsulCatalog.all_services
    rw [foldl_append_eq_flatten]
    rfl
  refine ⟨h, fun x => ?_⟩
  rw [h, count_flatten_sum]
  simp [List.map_map, Function.comp_def]

/-- Claim C7: every record returned by `txt_records` has a name ending
with the requested suffix. -/
theorem txt_records_only_matching_suffix (cf : CFClient) (zone : Zone)
    (suffix : String) (r : DNSRecord)
    (h : r ∈ CFManager.txt_records cf zone suffix) :
    endswith r.name suffix = true :=
  (List.mem_filter.mp h).2

/-- Witness for C7: a matching record of the concrete zone. -/
theorem txt_records_only_matching_suffix_witness :
    rec1 ∈ CFManager.txt_records cf0 zoneA "nodes.example.org" ∧
    endswith rec1.name "nodes.example.org" = true := by
  have hm : rec1 ∈ CFManager.txt_records cf0 zoneA "nodes.example.org" := by
    decide
  exact ⟨hm, txt_records_only_matching_suffix cf0 zoneA "nodes.example.org" rec1 hm⟩

end DnsDisc

namespace DnsDisc

/-- Claim C3 (amended): `txt_records` draws from the first provider page
only — every returned record comes from the first 1000 records of the
zone and matches the suffix, and the result is the complete set of
matching records exactly when the zone holds at most 1000 TXT records. -/
theorem txt_records_first_page_only (cf : CFClient) (zone : Zone)
    (suffix : String) :
    (∀ r ∈ CFManager.txt_records cf zone suffix,
        r ∈ (cf.dnsRecords zone.id).take 1000 ∧ endswith r.name suffix = true) ∧
    ((cf.dnsRecords zone.id).length ≤ 1000 →
      CFManager.txt_records cf zone suffix =
        (cf.dnsRecords zone.id).filter (fun r => endswith r.name suffix)) := by
  constructor
  · intro r hr
    exact ⟨(List.mem_filter.mp hr).1, (List.mem_filter.mp hr).2⟩
  · intro hlen
    unfold CFManager.txt_records
    rw [List.take_of_length_le hlen]

/-- Witness for C3 (amended) at the three-record zone, which fits in a
single page. -/
theorem txt_records_first_page_only_witness :
    (cf0.dnsRecords zoneA.id).length ≤ 1000 ∧
    CFManager.txt_records cf0 zoneA "nodes.example.org" =
      (cf0.dnsRecords zoneA.id).filter
        (fun r => endswith r.name "nodes.example.org") :=
  ⟨by decide, (txt_records_first_page_only cf0 zoneA "nodes.example.org").2 (by decide)⟩

/-- Counterexample for C3 as stated: in a zone of 1001 TXT records that
all end with `.suf`, the 1001st matching record is absent from the
result — the provider's pagination is not drained past the first page of
1000. -/
theorem txt_records_misses_beyond_first_page :
    (⟨"j", "b.suf", "c"⟩ : DNSRecord) ∈ bigCF.dnsRecords "z" ∧
    endswith "b.suf" ".suf" = true ∧
    (⟨"j", "b.suf", "c"⟩ : DNSRecord) ∉
      CFManager.txt_records bigCF ⟨"z", "example.org"⟩ ".suf" := by
  decide

/-- Claim C8 (amended): zone resolution returns the first exact name match
among the first page of at most 100 account zones, and raises
`StopIteration` when no zone of the account matches; but the search is
limited to that first page, so a matching zone beyond the first 100 is
missed. -/
theorem init_resolves_exact_match_in_first_page (cf : CFClient)
    (domain : String) :
    (∀ z : Zone, CFManager.init cf domain = .ok z →
        z.name = domain ∧ z ∈ cf.zones.take 100) ∧
    ((∀ z ∈ cf.zones, z.name ≠ domain) →
      CFManager.init cf domain = .error .stopIteration) := by
  constructor
  · intro z hz
    unfold CFManager.init at hz
    cases hfind : (cf.zones.take 100).find? (fun z => z.name == domain) with
    | none => rw [hfind] at hz; cases hz
    | some z' =>
      rw [hfind] at hz
      injection hz with h
      subst h
      have h1 := List.find?_some hfind
      have h2 := List.mem_of_find?_eq_some hfind
      exact ⟨by simpa using h1, h2⟩
  · intro hall
    unfold CFManager.init
    have hnone : (cf.zones.take 100).find? (fun z => z.name == domain) = none := by
      rw [List.find?_eq_none]
      intro x hx
      simpa using hall x (List.take_subset _ _ hx)
    rw [hnone]

/-- Witness for C8 (amended): the concrete account resolves its only zone
by exact name. -/
theorem init_resolves_exact_match_witness :
    zoneA.name = "example.org" ∧ zoneA ∈ cf0.zones.take 100 :=
  (init_resolves_exact_match_in_first_page cf0 "example.org").1 zoneA rfl

/-- Counterexample for C8 as stated: an account of 101 zones whose only
exact match sits at position 101 — resolution raises even though a
matching zone exists in the account. -/
theorem init_misses_match_beyond_first_page :
    (⟨"zb", "example.org"⟩ : Zone) ∈ manyZones ∧
    (Zone.mk "zb" "example.org").name = "example.org" ∧
    CFManager.init ⟨manyZones, fun _ => []⟩ "example.org" =
      .error .stopIteration :=
  ⟨by decide, rfl, rfl⟩

end DnsDisc

namespace DnsDisc

/-- When every instance carries the `node_enode` key, extraction succeeds
with one value per instance in instance order. -/
theorem service_enrs_of_all_some :
    ∀ ss : List Instance,
      (∀ s ∈ ss, (s.ServiceMeta.lookup "node_enode").isSome) →
      service_enrs ss =
        .ok (ss.filterMap (fun s => s.ServiceMeta.lookup "node_enode"))
  | [], _ => rfl
  | s :: ss, h => by
    obtain ⟨v, hv⟩ := Option.isSome_iff_exists.mp (h s (by simp))
    have ih := service_enrs_of_all_some ss (fun x hx => h x (by simp [hx]))
    simp [service_enrs, hv, ih]

/-- When some instance lacks the `node_enode` key, extraction raises
`KeyError('node_enode')`. -/
theorem service_enrs_error_of_missing :
    ∀ ss : List Instance,
      (∃ s ∈ ss, s.ServiceMeta.lookup "node_enode" = none) →
      service_enrs ss = .error (.keyError "node_enode")
  | [], h => absurd h (by simp)
  | s :: ss, h => by
    cases hl : s.ServiceMeta.lookup "node_enode" with
    | none => simp [service_enrs, hl]
    | some v =>
      have htail : ∃ x ∈ ss, x.ServiceMeta.lookup "node_enode" = none := by
        rcases h with ⟨x, hx, hxn⟩
        rcases List.mem_cons.mp hx with rfl | hmem
        · rw [hxn] at hl; cases hl
        · exact ⟨x, hmem, hxn⟩
      simp [service_enrs, hl, service_enrs_error_of_missing ss htail]

/-- When `f` is defined on all of `l`, `filterMap f` keeps one value per
element. -/
theorem length_filterMap_of_all_isSome {α β : Type} (f : α → Option β) :
    ∀ l : List α, (∀ x ∈ l, (f x).isSome) →
      (l.filterMap f).length = l.length
  | [], _ => rfl
  | x :: l, h => by
    obtain ⟨v, hv⟩ := Option.isSome_iff_exists.mp (h x (by simp))
    have ih := length_filterMap_of_all_isSome f l (fun y hy => h y (by simp [hy]))
    simp [hv, ih]

/-- Once extraction has succeeded, the run's first traced action is the
spawn of the generator with exactly the extracted endpoint list. -/
theorem main_trace_head (opts : Opts) (w : World) (enrs : List String)
    (h : service_enrs (ConsulCatalog.all_services w.consul opts.query_service
          [("env", opts.query_env), ("stage", opts.query_stage)]) = .ok enrs) :
    (main opts w).2.2.head? = some (.spawn opts.domain enrs) := by
  have hg := generate_trace opts.domain enrs w.rpc
  simp only [main, h]
  cases hgen : (DNSDiscovery.generate opts.domain enrs w.rpc).1 with
  | error e => simp [hg]
  | ok new_records =>
    cases hinit : CFManager.init w.cf opts.cf_domain with
    | error e => simp [hg]
    | ok zone =>
      cases hdel : (runDeletes w.deleteFails (w.cf.dnsRecords zone.id)
          (CFManager.txt_records w.cf zone opts.domain)).1 with
      | error e => simp [hdel, hg]
      | ok u => simp [hdel, hg]

/-- Claim C2: if the generator RPC answers with a payload carrying no
`result` (an error payload), the run aborts with `KeyError('result')`:
the provider's record table is untouched, the trace holds no delete and
no create, and the child process was still killed. -/
theorem no_deletion_on_generation_failure (opts : Opts) (w : World)
    (enrs : List String) (resp : RpcResponse)
    (h1 : service_enrs (ConsulCatalog.all_services w.consul opts.query_service
            [("env", opts.query_env), ("stage", opts.query_stage)]) = .ok enrs)
    (h2 : w.rpc = .response resp) (h3 : resp.result = none) :
    (main opts w).1 = .error (.keyError "result") ∧
    (main opts w).2.1 = w.cf.dnsRecords ∧
    (main opts w).2.2 =
      [.spawn opts.domain enrs, .sleep, .rpc "get_txt_records", .kill] ∧
    (∀ i, Event.delete i ∉ (main opts w).2.2) ∧
    (∀ n c, Event.create n c ∉ (main opts w).2.2) ∧
    Event.kill ∈ (main opts w).2.2 := by
  have hmain : main opts w =
      (.error (.keyError "result"), w.cf.dnsRecords,
       [.spawn opts.domain enrs, .sleep, .rpc "get_txt_records", .kill]) := by
    simp only [main, h1]
    simp [DNSDiscovery.generate, DNSDiscovery.records, DNSDiscovery._rpc, h2, h3]
  rw [hmain]
  refine ⟨rfl, rfl, rfl, ?_, ?_, ?_⟩ <;> simp

/-- Witness for C2 at the concrete error-payload world: two instances are
found, the RPC answers `{"error": ...}`, and the run aborts with the
zone's record table untouched after killing the child. -/
theorem no_deletion_on_generation_failure_witness :
    service_enrs (ConsulCatalog.all_services wErr.consul opts0.query_service
        [("env", opts0.query_env), ("stage", opts0.query_stage)]) =
      .ok ["enr:aaa", "enr:bbb"] ∧
    (main opts0 wErr).1 = .error (.keyError "result") ∧
    (main opts0 wErr).2.1 = wErr.cf.dnsRecords ∧
    (main opts0 wErr).2.2 =
      [.spawn "nodes.example.org" ["enr:aaa", "enr:bbb"], .sleep,
       .rpc "get_txt_records", .kill] :=
  have h := no_deletion_on_generation_failure opts0 wErr
    ["enr:aaa", "enr:bbb"] ⟨none, some "boom"⟩ rfl rfl rfl
  ⟨rfl, h.1, h.2.1, h.2.2.1⟩

/-- Claim C10: the coordinator aborts before the generator is launched
(empty trace) as soon as one instance's metadata lacks `node_enode`; when
every instance has it, the generator is spawned with exactly the
`node_enode` values, one per instance, in instance order. -/
theorem missing_enode_aborts_before_spawn (opts : Opts) (w : World) :
    ((∃ s ∈ ConsulCatalog.all_services w.consul opts.query_service
          [("env", opts.query_env), ("stage", opts.query_stage)],
        s.ServiceMeta.lookup "node_enode" = none) →
      (main opts w).1 = .error (.keyError "node_enode") ∧
      (main opts w).2.2 = []) ∧
    ((∀ s ∈ ConsulCatalog.all_services w.consul opts.query_service
          [("env", opts.query_env), ("stage", opts.query_stage)],
        (s.ServiceMeta.lookup "node_enode").isSome) →
      (main opts w).2.2.head? =
        some (.spawn opts.domain
          ((ConsulCatalog.all_services w.consul opts.query_service
              [("env", opts.query_env), ("stage", opts.query_stage)]).filterMap
            (fun s => s.ServiceMeta.lookup "node_enode"))) ∧
      ((ConsulCatalog.all_services w.consul opts.query_service
          [("env", opts.query_env), ("stage", opts.query_stage)]).filterMap
        (fun s => s.ServiceMeta.lookup "node_enode")).length =
        (ConsulCatalog.all_services w.consul opts.query_service
          [("env", opts.query_env), ("stage", opts.query_stage)]).length) := by
  constructor
  · intro hmiss
    have he := service_enrs_error_of_missing _ hmiss
    constructor <;> simp [main, he]
  · intro hall
    have he := service_enrs_of_all_some _ hall
    exact ⟨main_trace_head opts w _ he,
      length_filterMap_of_all_isSome _ _ hall⟩

/-- Witness for C10 at the world whose second instance lacks the key: the
run aborts with `KeyError('node_enode')` and an empty trace. -/
theorem missing_enode_aborts_before_spawn_witness :
    (main opts0 wBad).1 = .error (.keyError "node_enode") ∧
    (main opts0 wBad).2.2 = [] :=
  (missing_enode_aborts_before_spawn opts0 wBad).1 (by decide)

end DnsDisc

namespace DnsDisc

/-- Composing the id-removal of one delete with the removals of the later
deletes removes exactly the ids of the whole batch. -/
theorem filter_id_cons (zone : List DNSRecord) (i : String)
    (ids : List String) :
    (zone.filter (fun x => x.id != i)).filter
        (fun x => !(ids.contains x.id)) =
      zone.filter (fun x => !(((i :: ids).contains x.id))) := by
  rw [List.filter_filter]
  apply List.filter_congr
  intro x _
  simp only [List.contains_cons, Bool.not_or, bne]
  exact Bool.and_comm _ _

/-- A delete loop whose provider calls all succeed returns normally,
removes exactly the records whose id is among the batch, and traces one
delete per old record in order. -/
theorem runDeletes_ok (fails : String → Bool) :
    ∀ (olds zone : List DNSRecord),
      (∀ p ∈ olds, fails p.id = false) →
      runDeletes fails zone olds =
        (.ok (),
         zone.filter (fun x => !((olds.map DNSRecord.id).contains x.id)),
         olds.map (fun p => .delete p.id))
  | [], zone, _ => by simp [runDeletes]
  | r :: rs, zone, h => by
    have hr : fails r.id = false := h r (by simp)
    have ih := runDeletes_ok fails rs (zone.filter (fun x => x.id != r.id))
      (fun p hp => h p (by simp [hp]))
    simp only [runDeletes, hr, Bool.false_eq_true, if_false, ih,
      List.map_cons]
    rw [filter_id_cons zone r.id (rs.map DNSRecord.id)]

/-- A delete loop that fails at the provider on record `r`, after a clean
prefix `pre`, aborts with `providerError`: exactly the prefix records are
removed and traced, and the loop stops there. -/
theorem runDeletes_fail (fails : String → Bool) :
    ∀ (pre : List DNSRecord) (r : DNSRecord) (post zone : List DNSRecord),
      (∀ p ∈ pre, fails p.id = false) → fails r.id = true →
      runDeletes fails zone (pre ++ r :: post) =
        (.error .providerError,
         zone.filter (fun x => !((pre.map DNSRecord.id).contains x.id)),
         pre.map (fun p => .delete p.id))
  | [], r, post, zone, _, hr => by simp [runDeletes, hr]
  | p :: ps, r, post, zone, h, hr => by
    have hp : fails p.id = false := h p (by simp)
    have ih := runDeletes_fail fails ps r post
      (zone.filter (fun x => x.id != p.id))
      (fun q hq => h q (by simp [hq])) hr
    simp only [List.cons_append, runDeletes, hp, Bool.false_eq_true,
      if_false, List.append_eq, ih, List.map_cons]
    rw [filter_id_cons zone p.id (ps.map DNSRecord.id)]

end DnsDisc

namespace DnsDisc

/-- `contains` on id lists agrees with membership. -/
theorem contains_true_iff (ids : List String) (i : String) :
    ids.contains i = true ↔ i ∈ ids :=
  List.elem_iff

/-- An id outside the list is not `contains`-found. -/
theorem not_contains_of_not_mem {ids : List String} {i : String}
    (h : i ∉ ids) : ids.contains i = false :=
  Bool.eq_false_iff.mpr (fun hc => h ((contains_true_iff ids i).mp hc))

/-- Claim C6: when the provider's delete call fails on record `r` after a
clean prefix `pre` of the old-record list (and the run reached the delete
loop: extraction, generation and zone resolution all succeeded), the run
aborts immediately with `providerError`: exactly the prefix was deleted
and traced, the failing record and all later ones are still in the zone,
and no record was created. -/
theorem delete_failure_aborts_run (opts : Opts) (w : World)
    (enrs : List String) (nr : List (String × String)) (resp : RpcResponse)
    (zone : Zone) (pre post : List DNSRecord) (r : DNSRecord)
    (h1 : service_enrs (ConsulCatalog.all_services w.consul opts.query_service
            [("env", opts.query_env), ("stage", opts.query_stage)]) = .ok enrs)
    (h2 : w.rpc = .response resp) (h3 : resp.result = some nr)
    (h4 : CFManager.init w.cf opts.cf_domain = .ok zone)
    (h5 : CFManager.txt_records w.cf zone opts.domain = pre ++ r :: post)
    (h6 : ∀ p ∈ pre, w.deleteFails p.id = false)
    (h7 : w.deleteFails r.id = true)
    (h8 : ((w.cf.dnsRecords zone.id).map DNSRecord.id).Nodup) :
    (main opts w).1 = .error .providerError ∧
    (main opts w).2.2 =
      [.spawn opts.domain enrs, .sleep, .rpc "get_txt_records", .kill] ++
        pre.map (fun p => .delete p.id) ∧
    (∀ n c, Event.create n c ∉ (main opts w).2.2) ∧
    (∀ p ∈ pre, p ∉ (main opts w).2.1 zone.id) ∧
    r ∈ (main opts w).2.1 zone.id ∧
    ∀ q ∈ post, q ∈ (main opts w).2.1 zone.id := by
  have hdel := runDeletes_fail w.deleteFails pre r post
    (w.cf.dnsRecords zone.id) h6 h7
  have hmain : main opts w =
      (.error .providerError,
       updateRecs w.cf.dnsRecords zone.id
         ((w.cf.dnsRecords zone.id).filter
           (fun x => !((pre.map DNSRecord.id).contains x.id))),
       [.spawn opts.domain enrs, .sleep, .rpc "get_txt_records", .kill] ++
         pre.map (fun p => .delete p.id)) := by
    simp only [main, h1]
    simp [DNSDiscovery.generate, DNSDiscovery.records, DNSDiscovery._rpc,
      h2, h3, h4, h5, hdel]
  have hfinal : (main opts w).2.1 zone.id =
      (w.cf.dnsRecords zone.id).filter
        (fun x => !((pre.map DNSRecord.id).contains x.id)) := by
    rw [hmain]; simp [updateRecs]
  have hsub : List.Sublist (pre ++ r :: post) (w.cf.dnsRecords zone.id) := by
    rw [← h5]
    exact List.Sublist.trans (List.filter_sublist _) (List.take_sublist _ _)
  have hnd : (pre.map DNSRecord.id ++
      r.id :: post.map DNSRecord.id).Nodup := by
    have := List.Nodup.sublist (hsub.map DNSRecord.id) h8
    simpa using this
  have hdisj := (List.nodup_append.mp hnd).2.2
  refine ⟨by rw [hmain], by rw [hmain], ?_, ?_, ?_, ?_⟩
  · intro n c
    rw [hmain]
    simp
  · intro p hp
    rw [hfinal]
    intro hmem
    have hpred := (List.mem_filter.mp hmem).2
    have hin : p.id ∈ pre.map DNSRecord.id := List.mem_map_of_mem _ hp
    rw [(contains_true_iff _ _).mpr hin] at hpred
    cases hpred
  · rw [hfinal]
    refine List.mem_filter.mpr ⟨hsub.subset (by simp), ?_⟩
    have hnotin : r.id ∉ pre.map DNSRecord.id :=
      fun hmem => hdisj hmem (by simp)
    rw [not_contains_of_not_mem hnotin]
    rfl
  · intro q hq
    rw [hfinal]
    refine List.mem_filter.mpr ⟨hsub.subset (by simp [hq]), ?_⟩
    have hnotin : q.id ∉ pre.map DNSRecord.id := by
      intro hmem
      exact hdisj hmem (by simp [List.mem_map_of_mem _ hq])
    rw [not_contains_of_not_mem hnotin]
    rfl

end DnsDisc

namespace DnsDisc

/-- Witness for C6 at the concrete three-record zone with the delete of
`recB` failing: `recA` is deleted, `recB` and `recC` survive, nothing is
created, and the run aborts with the provider error. -/
theorem delete_failure_aborts_run_witness :
    (main opts0 wDel3).1 = .error .providerError ∧
    (main opts0 wDel3).2.2 =
      [.spawn "nodes.example.org" ["enr:aaa", "enr:bbb"], .sleep,
       .rpc "get_txt_records", .kill, .delete "ra"] ∧
    recA ∉ (main opts0 wDel3).2.1 "zid" ∧
    recB ∈ (main opts0 wDel3).2.1 "zid" ∧
    recC ∈ (main opts0 wDel3).2.1 "zid" :=
  have h := delete_failure_aborts_run opts0 wDel3 ["enr:aaa", "enr:bbb"]
    [("x.nodes.example.org", "v1")] ⟨some [("x.nodes.example.org", "v1")], none⟩
    zoneA [recA] [recC] recB rfl rfl rfl rfl (by decide) (by decide) rfl
    (by decide)
  ⟨h.1, by rw [h.2.1]; rfl, h.2.2.2.1 recA (by simp),
   h.2.2.2.2.1, h.2.2.2.2.2 recC (by simp)⟩

/-- Deleting exactly the ids of the zone's suffix-matching records leaves
exactly the zone's non-matching records, when record ids are unique. -/
theorem filter_delete_matching (zone : List DNSRecord) (suffix : String)
    (hnd : (zone.map DNSRecord.id).Nodup) :
    zone.filter (fun x =>
        !(((zone.filter (fun r => endswith r.name suffix)).map
            DNSRecord.id).contains x.id)) =
      zone.filter (fun x => !(endswith x.name suffix)) := by
  apply List.filter_congr
  intro x hx
  congr 1
  rw [Bool.eq_iff_iff, contains_true_iff]
  constructor
  · intro hmem
    obtain ⟨y, hy, hyx⟩ := List.mem_map.mp hmem
    have hy2 := List.mem_filter.mp hy
    have hxy : y = x := List.inj_on_of_nodup_map hnd hy2.1 hx hyx
    rw [← hxy]
    exact hy2.2
  · intro hend
    exact List.mem_map_of_mem _ (List.mem_filter.mpr ⟨hx, hend⟩)

/-- Claim C9 (amended): with an empty registry the generator is spawned
with an empty endpoint list, and when it returns the empty mapping the
run succeeds creating nothing, while every old record of the first
provider page matching the suffix is deleted; when the zone holds at most
1000 TXT records (hypothesis `h7`) this deletes every matching record,
leaving exactly the non-matching ones. -/
theorem empty_registry_full_replace (opts : Opts) (w : World)
    (resp : RpcResponse) (zone : Zone)
    (h0 : ConsulCatalog.all_services w.consul opts.query_service
        [("env", opts.query_env), ("stage", opts.query_stage)] = [])
    (h2 : w.rpc = .response resp) (h3 : resp.result = some [])
    (h4 : CFManager.init w.cf opts.cf_domain = .ok zone)
    (h5 : ∀ i, w.deleteFails i = false)
    (h6 : ((w.cf.dnsRecords zone.id).map DNSRecord.id).Nodup)
    (h7 : (w.cf.dnsRecords zone.id).length ≤ 1000) :
    (main opts w).1 = .ok () ∧
    (main opts w).2.2 =
      [.spawn opts.domain [], .sleep, .rpc "get_txt_records", .kill] ++
        (CFManager.txt_records w.cf zone opts.domain).map
          (fun p => .delete p.id) ∧
    (∀ n c, Event.create n c ∉ (main opts w).2.2) ∧
    (main opts w).2.1 zone.id =
      (w.cf.dnsRecords zone.id).filter
        (fun x => !(endswith x.name opts.domain)) := by
  have he : service_enrs (ConsulCatalog.all_services w.consul
      opts.query_service [("env", opts.query_env), ("stage", opts.query_stage)]) =
      .ok [] := by
    rw [h0]
    rfl
  have hdel := runDeletes_ok w.deleteFails
    (CFManager.txt_records w.cf zone opts.domain)
    (w.cf.dnsRecords zone.id) (fun p _ => h5 p.id)
  have htxt : CFManager.txt_records w.cf zone opts.domain =
      (w.cf.dnsRecords zone.id).filter
        (fun r => endswith r.name opts.domain) := by
    unfold CFManager.txt_records
    rw [List.take_of_length_le h7]
  have hmain : main opts w =
      (.ok (),
       updateRecs w.cf.dnsRecords zone.id
         ((w.cf.dnsRecords zone.id).filter
           (fun x => !(((CFManager.txt_records w.cf zone opts.domain).map
               DNSRecord.id).contains x.id))),
       [.spawn opts.domain [], .sleep, .rpc "get_txt_records", .kill] ++
         (CFManager.txt_records w.cf zone opts.domain).map
           (fun p => .delete p.id)) := by
    simp only [main, he]
    simp [DNSDiscovery.generate, DNSDiscovery.records, DNSDiscovery._rpc,
      h2, h3, h4, hdel, runCreates]
  refine ⟨by rw [hmain], by rw [hmain], ?_, ?_⟩
  · intro n c
    rw [hmain]
    simp
  · rw [hmain]
    simp only [updateRecs, if_pos]
    rw [htxt]
    exact filter_delete_matching _ _ h6

end DnsDisc

namespace DnsDisc

/-- Witness for C9 (amended) at the concrete empty-registry world: the
generator is spawned with `[]`, both matching records are deleted, nothing
is created, and only the unrelated record survives. -/
theorem empty_registry_full_replace_witness :
    (main opts0 wEmpty).1 = .ok () ∧
    (main opts0 wEmpty).2.2 =
      [.spawn "nodes.example.org" [], .sleep, .rpc "get_txt_records", .kill,
       .delete "r1", .delete "r2"] ∧
    (main opts0 wEmpty).2.1 "zid" = [rec3] :=
  have h := empty_registry_full_replace opts0 wEmpty ⟨some [], none⟩ zoneA
    rfl rfl rfl rfl (fun _ => rfl) (by decide) (by decide)
  ⟨h.1, h.2.1.trans rfl, h.2.2.2.trans rfl⟩

/-- Counterexample for C9 as stated: with an empty registry and an empty
generated mapping, a pre-existing matching record beyond the provider's
first page of 1000 survives the run — the full-replace deletion is not
exhaustive. -/
theorem empty_registry_leaves_unpaged_record :
    (main optsBig wEmptyBig).1 = .ok () ∧
    (⟨"j", "b.suf", "c"⟩ : DNSRecord) ∈ wEmptyBig.cf.dnsRecords "z" ∧
    endswith "b.suf" ".suf" = true ∧
    (⟨"j", "b.suf", "c"⟩ : DNSRecord) ∈ (main optsBig wEmptyBig).2.1 "z" := by
  refine ⟨rfl, by decide, by decide, by decide⟩

end DnsDisc
